import Mathlib

/-!
Shallow embedding of the cryptographic core of the `ai-email` repository
(`src/crypto/encrypt.js`, `src/keygen.js`, with `unnamed/part_000` a copy of
the encrypt module using Buffer-based base64).

Modelling conventions, stated once here and referenced from the doc comments
below:

* JavaScript byte buffers (`Buffer`, `Uint8Array`) are `List Nat` («Bytes»),
  one entry per byte.  Base64 and hex are byte-level bijections on the values
  the code produces, so fields that the source stores base64/hex-encoded are
  carried as the decoded bytes; the hex encoding itself is modelled explicitly
  (`hexEncode`) where a claim is about the serialized file format.
* JavaScript strings are `List Char` («JSString»); `TextEncoder`/`TextDecoder`
  and Node's `'utf8'` codec are modelled by an explicit UTF-8 encoder/decoder
  over `List Char`/byte lists.  The decoder's replacement-character policy on
  malformed input approximates WHATWG TextDecoder (it emits U+FFFD and resumes
  at the next byte); no claim depends on the exact resynchronisation points.
* External cryptographic primitives (`@noble/curves` x25519, Node
  `crypto` ChaCha20-Poly1305 / AES-256-GCM / PBKDF2) are not repository code;
  they are modelled ideally but with the structure of the real primitives:
  - x25519 is modelled as modular exponentiation in a concrete cyclic group
    (base 3 modulo the prime 251) over 32-byte little-endian scalars, which
    gives the real Diffie-Hellman commutation law; scalar clamping is omitted
    (it is deterministic preprocessing no claim depends on).
  - ChaCha20 and the AES-256-CTR core of GCM are keystream XOR ciphers with a
    concrete executable keystream function, exactly the shape of the real
    ciphers.
  - the Poly1305 tag is a concrete 16-byte function of (key, nonce,
    ciphertext) — the repository's `decrypt` never checks it, so no property
    of it is used.
  - PBKDF2 and the GCM tag are modelled as collision-free (length-prefix
    injective) byte encodings of their inputs, the standard ideal-MAC /
    ideal-KDF assumption; the repository's vault code *does* check the GCM
    tag, and the claims about it are exactly collision-freeness-style
    statements.
  - randomness (`crypto.randomBytes`, `x25519.utils.randomPrivateKey`) is
    supplied by the caller as explicit arguments, with the byte lengths the
    real sources guarantee appearing as hypotheses.
* Fallible operations return `Except JsError`; `JsError.authenticationFailure`
  is the error Node raises when an AEAD tag fails to verify.
-/

/-- A JavaScript byte buffer: one `Nat` per byte. -/
abbrev Bytes := List Nat

/-- A JavaScript string as its list of Unicode scalar values. -/
abbrev JSString := List Char

/-- Errors the modelled Node/noble primitives can raise. -/
inductive JsError where
  /-- a key of the wrong length (noble x25519 length assertions) -/
  | invalidKey
  /-- `createCipheriv`/`createDecipheriv` rejects a nonce that is not 12 bytes
      for chacha20-poly1305 -/
  | invalidNonceLength
  /-- `setAuthTag` rejects a tag that is not 16 bytes -/
  | invalidTagLength
  /-- an AEAD authentication tag failed to verify at `final()` -/
  | authenticationFailure
deriving DecidableEq, Repr

-- Decidable equality for Except results, used to evaluate the modelled
-- operations on concrete inputs.
deriving instance DecidableEq for Except

/-! ## Little-endian byte encoding of naturals (32-byte curve values) -/

/-- Little-endian base-256 encoding of `m` into exactly `k` bytes. -/
def encodeLE : Nat → Nat → Bytes
  | 0, _ => []
  | k + 1, m => m % 256 :: encodeLE k (m / 256)

/-- Little-endian base-256 value of a byte list. -/
def decodeNat : Bytes → Nat
  | [] => 0
  | b :: bs => b + 256 * decodeNat bs

/-! ## Keystream XOR (the shape of ChaCha20 and of AES-CTR inside GCM) -/

/-- XOR a byte list against the keystream `ks`, starting at index `i`. -/
def xorKSAux (ks : Nat → Nat) : Nat → Bytes → Bytes
  | _, [] => []
  | i, b :: bs => (b ^^^ ks i) :: xorKSAux ks (i + 1) bs

/-- XOR a byte list against the keystream `ks`. -/
def xorKS (ks : Nat → Nat) (bs : Bytes) : Bytes := xorKSAux ks 0 bs

/-- A concrete mixing fold used to build executable keystream functions. -/
def mixBytes (bs : Bytes) : Nat :=
  bs.foldl (fun a b => (a * 131 + b + 1) % 65521) 17

/-! ## x25519 model (`@noble/curves` x25519, external primitive) -/

/-- Concrete cyclic-group model of x25519: public key = 3 ^ scalar mod 251,
serialized as 32 little-endian bytes.  Clamping omitted (see header). -/
def x25519pub (priv : Bytes) : Bytes :=
  encodeLE 32 (3 ^ decodeNat priv % 251)

/-- Concrete model of the x25519 shared secret: point ^ scalar mod 251,
serialized as 32 little-endian bytes. -/
def x25519shared (priv pub : Bytes) : Bytes :=
  encodeLE 32 (decodeNat pub ^ decodeNat priv % 251)

/-- `x25519.getPublicKey` with noble's 32-byte length assertion. -/
def getPublicKeyChecked (priv : Bytes) : Except JsError Bytes :=
  if priv.length = 32 then .ok (x25519pub priv) else .error .invalidKey

/-- `x25519.getSharedSecret` with noble's 32-byte length assertions. -/
def getSharedSecretChecked (priv pub : Bytes) : Except JsError Bytes :=
  if priv.length = 32 ∧ pub.length = 32 then .ok (x25519shared priv pub)
  else .error .invalidKey

/-! ## UTF-8 codec (`TextEncoder` / `TextDecoder` / Node `'utf8'`) -/

/-- UTF-8 encoding of a single Unicode scalar value. -/
def utf8EncodeChar (c : Char) : Bytes :=
  let n := c.toNat
  if n < 0x80 then [n]
  else if n < 0x800 then [0xC0 + n / 64, 0x80 + n % 64]
  else if n < 0x10000 then
    [0xE0 + n / 4096, 0x80 + n / 64 % 64, 0x80 + n % 64]
  else
    [0xF0 + n / 262144, 0x80 + n / 4096 % 64, 0x80 + n / 64 % 64, 0x80 + n % 64]

/-- UTF-8 encoding of a string (`TextEncoder.encode`, Node `'utf8'` input). -/
def utf8Encode : JSString → Bytes
  | [] => []
  | c :: cs => utf8EncodeChar c ++ utf8Encode cs

/-- The U+FFFD replacement character emitted by `TextDecoder` on malformed
input. -/
def replChar : Char := Char.ofNat 0xFFFD

/-- Emit a decoded code point, replacing values that are not Unicode scalar
values (surrogates, out of range) as `TextDecoder` does. -/
def emitChar (n : Nat) : Char :=
  if n < 0xD800 ∨ (0xE000 ≤ n ∧ n < 0x110000) then Char.ofNat n else replChar

/-- Is `b` a UTF-8 continuation byte? -/
def isCont (b : Nat) : Bool := 0x80 ≤ b && b < 0xC0

/-- UTF-8 decoding loop: `need` is the number of continuation bytes still
expected, `acc` the partially accumulated code point.  On malformed input it
emits U+FFFD and resumes at the following byte (see header). -/
def utf8DecodeLoop : Bytes → Nat → Nat → JSString
  | [], 0, _ => []
  | [], _ + 1, _ => [replChar]
  | b :: bs, 0, _ =>
    if b < 0x80 then Char.ofNat b :: utf8DecodeLoop bs 0 0
    else if b < 0xC0 then replChar :: utf8DecodeLoop bs 0 0
    else if b < 0xE0 then utf8DecodeLoop bs 1 (b - 0xC0)
    else if b < 0xF0 then utf8DecodeLoop bs 2 (b - 0xE0)
    else if b < 0xF8 then utf8DecodeLoop bs 3 (b - 0xF0)
    else replChar :: utf8DecodeLoop bs 0 0
  | b :: bs, need + 1, acc =>
    if isCont b then
      let acc' := acc * 64 + (b - 0x80)
      if need = 0 then emitChar acc' :: utf8DecodeLoop bs 0 0
      else utf8DecodeLoop bs need acc'
    else replChar :: utf8DecodeLoop bs 0 0

/-- UTF-8 decoding of a byte list (`TextDecoder.decode`, Node `'utf8'`
output). -/
def utf8Decode (bs : Bytes) : JSString := utf8DecodeLoop bs 0 0

/-! ## Envelope hybrid encryption (`src/crypto/encrypt.js` lines 24-108) -/

/-- The `string | Uint8Array` plaintext parameter of `encrypt`. -/
inductive Plain where
  | str (s : JSString)
  | bytes (bs : Bytes)
deriving DecidableEq, Repr

/-- `encrypt` step 4: strings go through `TextEncoder`, byte arrays are used
as-is (`encrypt.js` lines 36-38). -/
def plainBytes : Plain → Bytes
  | .str s => utf8Encode s
  | .bytes bs => bs

/-- The envelope object returned by `encrypt` (`encrypt.js` lines 50-65).
The three binary fields are stored base64-encoded by the source; they are
carried here as the decoded bytes (see header). -/
structure Envelope where
  keyId : Bytes
  ephemeralPublicKey : Bytes
  nonce : Bytes
  ciphertext : Bytes
  timestamp : Nat
deriving DecidableEq, Repr

/-- Concrete executable model of the ChaCha20 keystream for a given key and
nonce (external primitive; only its functional shape matters). -/
def chachaKeystream (key nonce : Bytes) (i : Nat) : Nat :=
  (mixBytes key * 97 + mixBytes nonce * 89 + i * 31 + 7) % 256

/-- Concrete executable model of the 16-byte Poly1305 tag over (key, nonce,
ciphertext) appended by `cipher.getAuthTag()`.  The repository's `decrypt`
never verifies it, so no property of this function is used anywhere. -/
def poly1305 (key nonce ct : Bytes) : Bytes :=
  (List.range 16).map
    (fun i => (mixBytes key * 11 + mixBytes nonce * 5 + mixBytes ct * 3 + i) % 256)

/-- `encrypt(publicKeyBase64, plaintext)` of `encrypt.js` lines 24-66.
`ephPriv` is the ephemeral private key drawn by `x25519.utils.randomPrivateKey`
(always 32 bytes), `nonce` the 12 bytes drawn by `crypto.randomBytes(12)`, and
`now` the `Date.now()` timestamp; randomness and clock are external inputs
(see header).  The ciphertext field is ChaCha20 body with the 16-byte tag
appended, exactly as in the source. -/
def encrypt (publicKey : Bytes) (plaintext : Plain) (ephPriv nonce : Bytes)
    (now : Nat) : Except JsError Envelope :=
  match getPublicKeyChecked ephPriv with
  | .error e => .error e
  | .ok ephemeralPublicKey =>
    match getSharedSecretChecked ephPriv publicKey with
    | .error e => .error e
    | .ok sharedKey =>
      let ptBytes := plainBytes plaintext
      if nonce.length = 12 then
        let body := xorKS (chachaKeystream sharedKey nonce) ptBytes
        .ok { keyId := publicKey.take 8
              ephemeralPublicKey := ephemeralPublicKey
              nonce := nonce
              ciphertext := body ++ poly1305 sharedKey nonce body
              timestamp := now }
      else .error .invalidNonceLength

/-- `decrypt(privateKeyBase64, encryptedData)` of `encrypt.js` lines 75-95,
translated step by step: recompute the shared secret, slice the trailing 16
bytes off as the tag (`ciphertext.slice(-16)` / `slice(0, -16)`), stream-decrypt
the body, and return the `TextDecoder` decoding.  The source calls
`decipher.setAuthTag(...)` but never `decipher.final()`, so the tag it sliced
off is never compared against anything: no branch of this function can
produce `JsError.authenticationFailure`. -/
def decrypt (privateKey : Bytes) (env : Envelope) : Except JsError JSString :=
  match getSharedSecretChecked privateKey env.ephemeralPublicKey with
  | .error e => .error e
  | .ok sharedKey =>
    if env.nonce.length = 12 then
      let ct := env.ciphertext
      let tag := ct.drop (ct.length - 16)
      if tag.length = 16 then
        let body := ct.take (ct.length - 16)
        let ptBytes := xorKS (chachaKeystream sharedKey env.nonce) body
        .ok (utf8Decode ptBytes)
      else .error .invalidTagLength
    else .error .invalidNonceLength

/-! ## Envelope validator (`encrypt.js` lines 152-172) -/

/-- One field of an arbitrary input object to `validateEncryptedData`,
classified by what the strict noble base64 decoder distinguishes: the field is
missing or an empty string (falsy), it is a truthy string that fails to decode
(`base64.decode` throws), or it decodes to the given bytes. -/
inductive FieldVal where
  | absent
  | malformed
  | bytes (bs : Bytes)
deriving DecidableEq, Repr

/-- The three fields of an input object that `validateEncryptedData`
inspects. -/
structure RawEnvelope where
  ephemeralPublicKey : FieldVal
  nonce : FieldVal
  ciphertext : FieldVal
deriving DecidableEq, Repr

/-- The per-field check of the `for` loop in `validateEncryptedData`: falsy
field → false; `base64.decode` throws → caught, false; decoded empty → false;
otherwise the field passes.  Note: no byte-length comparison appears in the
source. -/
def checkField : FieldVal → Bool
  | .absent => false
  | .malformed => false
  | .bytes bs => decide (bs.length ≠ 0)

/-- `validateEncryptedData(encryptedData)` of `encrypt.js` lines 152-172:
the loop over `['ephemeralPublicKey', 'nonce', 'ciphertext']`. -/
def validateEncryptedData (e : RawEnvelope) : Bool :=
  checkField e.ephemeralPublicKey && checkField e.nonce && checkField e.ciphertext

/-! ## Batch decryption (`encrypt.js` lines 119-144) -/

/-- An element of the `decryptBatch` input/output lists.  `payload` stands for
the element's own JSON-serializable fields (the `...email` / `...parsed`
spreads move it around opaquely); `encrypted`, `encryption`, `error`,
`errorMessage` and `decryptedAt` are the fields the source reads or writes. -/
structure BEmail where
  encrypted : Bool
  encryption : Option Envelope
  payload : JSString
  error : Option JSString
  errorMessage : Option JSString
  decryptedAt : Option Nat
deriving DecidableEq, Repr

/-- Modelled fragment of the external `JSON.parse` builtin: it accepts a
string iff it starts with `U+007B` and ends with `U+007D` (the object-literal
shape `JSON.stringify` produced on the encryption side); no claim depends on
the finer JSON grammar. -/
def jsonOk (s : JSString) : Bool :=
  s.head? = some (Char.ofNat 0x7B) && s.getLast? = some (Char.ofNat 0x7D)

/-- `JSON.parse` as used by `decryptBatch`: the parsed object is carried as
the accepted string itself (the subsequent `...parsed` spread is modelled by
storing it into `payload`). -/
def jsonParse (s : JSString) : Option JSString :=
  if jsonOk s then some s else none

/-- The `'解密失败'` marker `decryptBatch` stores in the `error` field. -/
def decryptFailMsg : JSString := "解密失败".data

/-- The `error.message` text attached by the `catch` block, per modelled
error. -/
def jsErrorMessage : JsError → JSString
  | .invalidKey => "invalid key length".data
  | .invalidNonceLength => "Invalid initialization vector".data
  | .invalidTagLength => "Invalid authentication tag length".data
  | .authenticationFailure =>
      "Unsupported state or unable to authenticate data".data

/-- The `error.message` of the `SyntaxError` thrown by `JSON.parse`. -/
def jsonParseErrMsg : JSString := "Unexpected token in JSON".data

/-- The body of the `encryptedEmails.map(email => ...)` callback in
`decryptBatch` (`encrypt.js` lines 120-143): pass through elements whose
`encrypted` flag is falsy or whose `encryption` field is absent; otherwise
decrypt, `JSON.parse` the result, and either merge the parsed payload
(with `encrypted: false` and a `decryptedAt` timestamp) or, if anything threw,
attach the per-element error marker. -/
def decryptOne (privateKey : Bytes) (now : Nat) (email : BEmail) : BEmail :=
  if email.encrypted = false ∨ email.encryption = none then email
  else
    match email.encryption with
    | none => email
    | some env =>
      match decrypt privateKey env with
      | .error e =>
        { email with error := some decryptFailMsg
                     errorMessage := some (jsErrorMessage e) }
      | .ok content =>
        match jsonParse content with
        | none =>
          { email with error := some decryptFailMsg
                       errorMessage := some jsonParseErrMsg }
        | some parsed =>
          { email with payload := parsed
                       encrypted := false
                       decryptedAt := some now }

/-- `decryptBatch(privateKeyBase64, encryptedEmails)` of `encrypt.js`
lines 119-144: an element-wise `map` of `decryptOne`. -/
def decryptBatch (privateKey : Bytes) (now : Nat) (emails : List BEmail) :
    List BEmail :=
  emails.map (decryptOne privateKey now)

/-! ## Key generation and passphrase vault (`src/keygen.js`) -/

/-- The key pair returned by `generateKeyPair` (`keygen.js` lines 90-98).
The source returns both halves base64-encoded; base64 is a byte-level
bijection and the fields are carried as the decoded bytes (see header). -/
structure KeyPair where
  publicKey : Bytes
  privateKey : Bytes
deriving DecidableEq, Repr

/-- `generateKeyPair()` of `keygen.js` lines 90-98: `rand` is the 32-byte
output of `x25519.utils.randomPrivateKey()` (randomness is an external input,
see header). -/
def generateKeyPair (rand : Bytes) : KeyPair :=
  { publicKey := x25519pub rand, privateKey := rand }

/-- Length-prefixed byte encoding, used to build the collision-free models of
PBKDF2 and the GCM tag (ideal-KDF / ideal-MAC, see header). -/
def encodeBytes (xs : Bytes) : Bytes := xs.length :: xs

/-- Ideal collision-free model of
`crypto.pbkdf2Sync(password, salt, 100000, 32, 'sha512')`: the derived key is
an injective byte encoding of (password, salt). -/
def pbkdf2 (password salt : Bytes) : Bytes :=
  encodeBytes password ++ encodeBytes salt

/-- Ideal collision-free model of the AES-256-GCM authentication tag over
(derived key, iv, ciphertext), produced by `cipher.getAuthTag()` and verified
by `decipher.final()`. -/
def gcmTag (key iv ct : Bytes) : Bytes :=
  encodeBytes key ++ encodeBytes iv ++ encodeBytes ct

/-- Concrete executable model of the AES-256-CTR keystream inside GCM
(external primitive; only its functional shape matters). -/
def aesKeystream (key iv : Bytes) (i : Nat) : Nat :=
  (mixBytes key * 101 + mixBytes iv * 83 + i * 29 + 13) % 256

/-- The object returned by `encryptPrivateKey` (`keygen.js` lines 52-57) and
destructured by `decryptPrivateKey`.  Note the fourth property of the source
object is named `encrypted`, not `ciphertext`; fields are stored hex-encoded
by the source and carried here as the decoded bytes (see header, and
`hexEncode`/`privateKeyFileRecord` for the at-rest form). -/
structure VaultBlob where
  salt : Bytes
  iv : Bytes
  authTag : Bytes
  encrypted : Bytes
deriving DecidableEq, Repr

/-- `encryptPrivateKey(privateKey, password)` of `keygen.js` lines 41-58:
`salt` is the 32-byte output of `generateSalt()` and `iv` the 16-byte output
of `crypto.randomBytes(16)` (randomness is an external input, see header).
The private key string is consumed as UTF-8 (`cipher.update(privateKey,
'utf8', 'hex')`). -/
def encryptPrivateKey (privateKey password : JSString) (salt iv : Bytes) :
    VaultBlob :=
  let key := pbkdf2 (utf8Encode password) salt
  let ct := xorKS (aesKeystream key iv) (utf8Encode privateKey)
  { salt := salt
    iv := iv
    authTag := gcmTag key iv ct
    encrypted := ct }

/-- `decryptPrivateKey(encryptedData, password)` of `keygen.js` lines 63-85:
re-derive the key from (password, salt), authenticated-decrypt with the
stored iv and authTag.  Unlike the envelope `decrypt`, this function calls
`decipher.final()`, which verifies the GCM tag and throws on mismatch; the
result is decoded as UTF-8 (`decipher.update(encrypted, 'hex', 'utf8')`). -/
def decryptPrivateKey (blob : VaultBlob) (password : JSString) :
    Except JsError JSString :=
  let key := pbkdf2 (utf8Encode password) blob.salt
  if gcmTag key blob.iv blob.encrypted = blob.authTag then
    .ok (utf8Decode (xorKS (aesKeystream key blob.iv) blob.encrypted))
  else .error .authenticationFailure

/-- `verifyKeyPair(publicKey, privateKey)` of `keygen.js` lines 158-166:
recompute the public key from the private bytes and compare; any throw
(noble's 32-byte assertion in `getPublicKey`) is caught and yields `false`.
`Buffer.from(str, 'base64')` itself never throws, so the inputs are carried
as the decoded bytes and the comparison of base64 strings is the comparison
of the underlying bytes (see header). -/
def verifyKeyPair (publicKey privateKey : Bytes) : Bool :=
  match getPublicKeyChecked privateKey with
  | .ok derived => derived == publicKey
  | .error _ => false

/-! ## At-rest private-key file (`keygen.js` lines 103-128) -/

/-- Lower-case hex digit of a nibble. -/
def hexDigit (n : Nat) : Char :=
  if n < 10 then Char.ofNat (48 + n) else Char.ofNat (87 + n)

/-- Lower-case hex encoding of a byte list (`Buffer.toString('hex')` /
the `'hex'` output encoding of `cipher.update`). -/
def hexEncode : Bytes → JSString
  | [] => []
  | b :: bs => hexDigit (b / 16 % 16) :: hexDigit (b % 16) :: hexEncode bs

/-- The field list of the JSON record `saveKeys` writes to
`private-key.json` (`keygen.js` lines 119-122): `JSON.stringify` of the
object returned by `encryptPrivateKey`, whose properties in order are
`salt`, `iv`, `authTag`, `encrypted`, each a hex string. -/
def privateKeyFileRecord (blob : VaultBlob) : List (JSString × JSString) :=
  [("salt".data, hexEncode blob.salt),
   ("iv".data, hexEncode blob.iv),
   ("authTag".data, hexEncode blob.authTag),
   ("encrypted".data, hexEncode blob.encrypted)]

/-! ## Single-bit tampering -/

/-- Flip bit `j` of byte `i` of a byte list (identity when `i` is out of
range, as `List.set` is). -/
def flipBit (bs : Bytes) (i j : Nat) : Bytes :=
  bs.set i ((bs.getD i 0) ^^^ 2 ^ j)

/-! ## Concrete sample values used in witnesses and counterexamples -/

/-- A concrete 32-byte private scalar (output of the external RNG). -/
def sampleRand : Bytes := 2 :: List.replicate 31 0

/-- A concrete 32-byte ephemeral private scalar. -/
def sampleEph : Bytes := 5 :: List.replicate 31 0

/-- A concrete 12-byte nonce. -/
def sampleNonce : Bytes := List.replicate 12 0

/-- The key pair generated from `sampleRand`. -/
def sampleKP : KeyPair := generateKeyPair sampleRand

/-- A default envelope used only as the `getD` fallback below. -/
def defaultEnvelope : Envelope :=
  { keyId := [], ephemeralPublicKey := [], nonce := [], ciphertext := []
    timestamp := 0 }

/-- The envelope `encrypt` produces for the plaintext string `"hi"` under
`sampleKP.publicKey` with the sample randomness. -/
def sampleEnv : Envelope :=
  (encrypt sampleKP.publicKey (.str "hi".data) sampleEph sampleNonce 0).toOption.getD
    defaultEnvelope

/-- A concrete JSON object text (the string `U+007B "a":1 U+007D`). -/
def sampleJson : JSString :=
  Char.ofNat 0x7B :: ("\"a\":1".data ++ [Char.ofNat 0x7D])

/-- The envelope `encrypt` produces for the JSON plaintext `sampleJson`. -/
def sampleEnvJ : Envelope :=
  (encrypt sampleKP.publicKey (.str sampleJson) sampleEph sampleNonce 0).toOption.getD
    defaultEnvelope

/-- The envelope `encrypt` produces for the single non-UTF-8 byte `0xFF`. -/
def sampleEnv255 : Envelope :=
  (encrypt sampleKP.publicKey (.bytes [255]) sampleEph sampleNonce 0).toOption.getD
    defaultEnvelope

/-- A `decryptBatch` input element carrying the given envelope. -/
def mkBatchEmail (env : Envelope) : BEmail :=
  { encrypted := true, encryption := some env, payload := []
    error := none, errorMessage := none, decryptedAt := none }

/-! ## Helper lemmas -/

theorem length_xorKSAux (ks : Nat → Nat) :
    ∀ (i : Nat) (bs : Bytes), (xorKSAux ks i bs).length = bs.length
  | _, [] => rfl
  | i, b :: bs => by simp [xorKSAux, length_xorKSAux ks (i + 1) bs]

theorem length_xorKS (ks : Nat → Nat) (bs : Bytes) :
    (xorKS ks bs).length = bs.length := length_xorKSAux ks 0 bs

theorem xorKSAux_xorKSAux (ks : Nat → Nat) :
    ∀ (i : Nat) (bs : Bytes), xorKSAux ks i (xorKSAux ks i bs) = bs
  | _, [] => rfl
  | i, b :: bs => by
    simp [xorKSAux, xorKSAux_xorKSAux ks (i + 1) bs, Nat.xor_cancel_right]

theorem xorKS_xorKS (ks : Nat → Nat) (bs : Bytes) :
    xorKS ks (xorKS ks bs) = bs := xorKSAux_xorKSAux ks 0 bs

theorem length_encodeLE : ∀ (k m : Nat), (encodeLE k m).length = k
  | 0, _ => rfl
  | k + 1, m => by simp [encodeLE, length_encodeLE k]

theorem decodeNat_encodeLE_zero : ∀ (k : Nat), decodeNat (encodeLE k 0) = 0
  | 0 => rfl
  | k + 1 => by simp [encodeLE, decodeNat, decodeNat_encodeLE_zero k]

theorem decodeNat_encodeLE_small :
    ∀ (k : Nat), 0 < k → ∀ (m : Nat), m < 256 → decodeNat (encodeLE k m) = m
  | k + 1, _, m, h => by
    simp [encodeLE, decodeNat, Nat.mod_eq_of_lt h, Nat.div_eq_of_lt h,
      decodeNat_encodeLE_zero k]

theorem pow_mod_comm (x y : Nat) :
    (3 ^ x % 251) ^ y % 251 = (3 ^ y % 251) ^ x % 251 := by
  rw [← Nat.pow_mod, ← Nat.pow_mod, ← pow_mul, ← pow_mul, Nat.mul_comm]

/-- The Diffie-Hellman commutation law of the x25519 model: both parties
compute the same shared secret. -/
theorem dh_comm (a b : Bytes) :
    x25519shared a (x25519pub b) = x25519shared b (x25519pub a) := by
  unfold x25519shared x25519pub
  rw [decodeNat_encodeLE_small 32 (by norm_num) _
        (lt_trans (Nat.mod_lt _ (by norm_num)) (by norm_num)),
      decodeNat_encodeLE_small 32 (by norm_num) _
        (lt_trans (Nat.mod_lt _ (by norm_num)) (by norm_num)),
      pow_mod_comm]

theorem emitChar_toNat (c : Char) : emitChar c.toNat = c := by
  have hv : c.toNat < 0xD800 ∨ (0xDFFF < c.toNat ∧ c.toNat < 0x110000) := c.valid
  unfold emitChar
  rw [if_pos (by omega), Char.ofNat_toNat]

theorem utf8DecodeLoop_encodeChar (c : Char) (bs : Bytes) :
    utf8DecodeLoop (utf8EncodeChar c ++ bs) 0 0 = c :: utf8DecodeLoop bs 0 0 := by
  have hv : c.toNat < 0xD800 ∨ (0xDFFF < c.toNat ∧ c.toNat < 0x110000) := c.valid
  by_cases h1 : c.toNat < 0x80
  · have e1 : utf8EncodeChar c = [c.toNat] := by simp [utf8EncodeChar, h1]
    rw [e1]
    show utf8DecodeLoop (c.toNat :: bs) 0 0 = _
    rw [utf8DecodeLoop, if_pos h1, Char.ofNat_toNat]
  · by_cases h2 : c.toNat < 0x800
    · have e1 : utf8EncodeChar c = [0xC0 + c.toNat / 64, 0x80 + c.toNat % 64] := by
        simp [utf8EncodeChar, h1, h2]
      rw [e1]
      show utf8DecodeLoop ((0xC0 + c.toNat / 64) :: (0x80 + c.toNat % 64) :: bs) 0 0 = _
      rw [utf8DecodeLoop, if_neg (by omega), if_neg (by omega), if_pos (by omega)]
      rw [utf8DecodeLoop]
      rw [if_pos (by simp [isCont]; omega)]
      rw [if_pos rfl]
      have hacc : (0xC0 + c.toNat / 64 - 0xC0) * 64 + (0x80 + c.toNat % 64 - 0x80) = c.toNat := by
        omega
      rw [hacc, emitChar_toNat]
    · by_cases h3 : c.toNat < 0x10000
      · have e1 : utf8EncodeChar c =
            [0xE0 + c.toNat / 4096, 0x80 + c.toNat / 64 % 64, 0x80 + c.toNat % 64] := by
          simp [utf8EncodeChar, h1, h2, h3]
        rw [e1]
        show utf8DecodeLoop ((0xE0 + c.toNat / 4096) :: (0x80 + c.toNat / 64 % 64) ::
          (0x80 + c.toNat % 64) :: bs) 0 0 = _
        rw [utf8DecodeLoop, if_neg (by omega), if_neg (by omega), if_neg (by omega),
          if_pos (by omega)]
        rw [utf8DecodeLoop, if_pos (by simp [isCont]; omega)]
        simp only [Nat.succ_ne_zero, if_false, if_neg (by omega : ¬ (1 : Nat) = 0)]
        rw [utf8DecodeLoop, if_pos (by simp [isCont]; omega)]
        rw [if_pos rfl]
        have hacc : ((0xE0 + c.toNat / 4096 - 0xE0) * 64 + (0x80 + c.toNat / 64 % 64 - 0x80)) * 64
            + (0x80 + c.toNat % 64 - 0x80) = c.toNat := by omega
        rw [hacc, emitChar_toNat]
      · have h4 : c.toNat < 0x110000 := by omega
        have e1 : utf8EncodeChar c =
            [0xF0 + c.toNat / 262144, 0x80 + c.toNat / 4096 % 64,
             0x80 + c.toNat / 64 % 64, 0x80 + c.toNat % 64] := by
          simp [utf8EncodeChar, h1, h2, h3]
        rw [e1]
        show utf8DecodeLoop ((0xF0 + c.toNat / 262144) :: (0x80 + c.toNat / 4096 % 64) ::
          (0x80 + c.toNat / 64 % 64) :: (0x80 + c.toNat % 64) :: bs) 0 0 = _
        rw [utf8DecodeLoop, if_neg (by omega), if_neg (by omega), if_neg (by omega),
          if_neg (by omega), if_pos (by omega)]
        rw [utf8DecodeLoop, if_pos (by simp [isCont]; omega)]
        simp only [if_neg (by omega : ¬ (2 : Nat) = 0)]
        rw [utf8DecodeLoop, if_pos (by simp [isCont]; omega)]
        simp only [if_neg (by omega : ¬ (1 : Nat) = 0)]
        rw [utf8DecodeLoop, if_pos (by simp [isCont]; omega)]
        rw [if_pos rfl]
        have hacc : (((0xF0 + c.toNat / 262144 - 0xF0) * 64 +
            (0x80 + c.toNat / 4096 % 64 - 0x80)) * 64 +
            (0x80 + c.toNat / 64 % 64 - 0x80)) * 64 +
            (0x80 + c.toNat % 64 - 0x80) = c.toNat := by omega
        rw [hacc, emitChar_toNat]

theorem utf8Decode_utf8Encode (s : JSString) : utf8Decode (utf8Encode s) = s := by
  induction s with
  | nil => rfl
  | cons c cs ih =>
    show utf8DecodeLoop (utf8EncodeChar c ++ utf8Encode cs) 0 0 = c :: cs
    rw [utf8DecodeLoop_encodeChar]
    exact congrArg (c :: ·) ih

theorem utf8Encode_inj {s t : JSString} (h : utf8Encode s = utf8Encode t) :
    s = t := by
  have h2 := congrArg utf8Decode h
  rwa [utf8Decode_utf8Encode, utf8Decode_utf8Encode] at h2

theorem encodeBytes_append_inj {a b x y : Bytes}
    (h : encodeBytes a ++ x = encodeBytes b ++ y) : a = b ∧ x = y := by
  unfold encodeBytes at h
  rw [List.cons_append, List.cons_append] at h
  obtain ⟨h1, h2⟩ := List.cons.inj h
  exact List.append_inj h2 h1

theorem encodeBytes_inj {a b : Bytes} (h : encodeBytes a = encodeBytes b) :
    a = b := (List.cons.inj h).2

theorem pbkdf2_inj {p s q t : Bytes} (h : pbkdf2 p s = pbkdf2 q t) :
    p = q ∧ s = t := by
  obtain ⟨h1, h2⟩ := encodeBytes_append_inj h
  exact ⟨h1, encodeBytes_inj h2⟩

theorem gcmTag_inj {k i c l j d : Bytes} (h : gcmTag k i c = gcmTag l j d) :
    k = l ∧ i = j ∧ c = d := by
  unfold gcmTag at h
  rw [List.append_assoc, List.append_assoc] at h
  obtain ⟨h1, h2⟩ := encodeBytes_append_inj h
  obtain ⟨h3, h4⟩ := encodeBytes_append_inj h2
  exact ⟨h1, h3, encodeBytes_inj h4⟩

theorem xor_two_pow_ne (b j : Nat) : b ^^^ 2 ^ j ≠ b := by
  intro h
  have h1 : b ^^^ (b ^^^ 2 ^ j) = b ^^^ b := congrArg (b ^^^ ·) h
  rw [← Nat.xor_assoc, Nat.xor_self, Nat.zero_xor] at h1
  exact (Nat.two_pow_pos j).ne' h1

theorem length_flipBit (bs : Bytes) (i j : Nat) :
    (flipBit bs i j).length = bs.length := by
  simp [flipBit]

theorem flipBit_ne (bs : Bytes) (i j : Nat) (h : i < bs.length) :
    flipBit bs i j ≠ bs := by
  intro he
  have hg : (flipBit bs i j)[i]? = bs[i]? := by rw [he]
  simp only [flipBit] at hg
  rw [List.getElem?_set_eq_of_lt _ h, List.getElem?_eq_getElem h] at hg
  rw [List.getD_eq_getElem bs 0 h] at hg
  exact xor_two_pow_ne _ j (Option.some.inj hg)

theorem length_poly1305 (key nonce ct : Bytes) : (poly1305 key nonce ct).length = 16 := by
  simp [poly1305]

/-! ## Claim theorems -/

/-- Claim C4: for every private key encoding K and every passphrase W, opening
a vault blob sealed from (K, W) with the same passphrase W and unmodified
fields returns exactly K: `decryptPrivateKey(encryptPrivateKey(K, W), W) = K`
for any salt and iv the RNG drew. -/
theorem C4_vault_roundtrip (K W : JSString) (salt iv : Bytes) :
    decryptPrivateKey (encryptPrivateKey K W salt iv) W = .ok K := by
  unfold decryptPrivateKey encryptPrivateKey
  simp [xorKS_xorKS, utf8Decode_utf8Encode]

/-- Claim C5: opening a vault blob sealed under passphrase W with any other
passphrase fails with AuthenticationFailure (GCM tag mismatch at `final()`),
and that is the only error signal `decryptPrivateKey` produces. -/
theorem C5_wrong_passphrase (K W W' : JSString) (salt iv : Bytes) (h : W ≠ W') :
    decryptPrivateKey (encryptPrivateKey K W salt iv) W' =
      .error .authenticationFailure := by
  unfold decryptPrivateKey encryptPrivateKey
  simp only []
  rw [if_neg]
  intro heq
  obtain ⟨hk, -, -⟩ := gcmTag_inj heq
  obtain ⟨hp, -⟩ := pbkdf2_inj hk
  exact h (utf8Encode_inj hp).symm

/-- Witness for C5 at concrete inputs. -/
theorem C5_wrong_passphrase_witness :
    ("pw".data ≠ "qw".data) ∧
    decryptPrivateKey (encryptPrivateKey "key".data "pw".data [1] [2]) "qw".data =
      .error .authenticationFailure :=
  ⟨by decide, C5_wrong_passphrase "key".data "pw".data "qw".data [1] [2] (by decide)⟩

/-- Claim C6: flipping any single bit of any byte of any of the four fields of
a sealed vault blob (salt, iv, authTag, encrypted ciphertext) makes
`decryptPrivateKey` with the correct passphrase fail with
AuthenticationFailure; in particular it never returns key bytes different
from the sealed ones. -/
theorem C6_vault_tamper (K W : JSString) (salt iv : Bytes) (i j : Nat) :
    (i < salt.length →
      decryptPrivateKey
        { encryptPrivateKey K W salt iv with salt := flipBit salt i j } W =
        .error .authenticationFailure) ∧
    (i < iv.length →
      decryptPrivateKey
        { encryptPrivateKey K W salt iv with iv := flipBit iv i j } W =
        .error .authenticationFailure) ∧
    (i < (encryptPrivateKey K W salt iv).authTag.length →
      decryptPrivateKey
        { encryptPrivateKey K W salt iv with
            authTag := flipBit (encryptPrivateKey K W salt iv).authTag i j } W =
        .error .authenticationFailure) ∧
    (i < (encryptPrivateKey K W salt iv).encrypted.length →
      decryptPrivateKey
        { encryptPrivateKey K W salt iv with
            encrypted := flipBit (encryptPrivateKey K W salt iv).encrypted i j } W =
        .error .authenticationFailure) := by
  refine ⟨fun hi => ?_, fun hi => ?_, fun hi => ?_, fun hi => ?_⟩
  · unfold decryptPrivateKey encryptPrivateKey
    simp only []
    rw [if_neg]
    intro heq
    obtain ⟨hk, -, -⟩ := gcmTag_inj heq
    obtain ⟨-, hs⟩ := pbkdf2_inj hk
    exact flipBit_ne salt i j hi hs
  · unfold decryptPrivateKey encryptPrivateKey
    simp only []
    rw [if_neg]
    intro heq
    obtain ⟨-, hv, -⟩ := gcmTag_inj heq
    exact flipBit_ne iv i j hi hv
  · unfold decryptPrivateKey encryptPrivateKey at *
    simp only [] at hi ⊢
    rw [if_neg]
    intro heq
    exact flipBit_ne _ i j hi heq.symm
  · unfold decryptPrivateKey encryptPrivateKey at *
    simp only [] at hi ⊢
    rw [if_neg]
    intro heq
    obtain ⟨-, -, hc⟩ := gcmTag_inj heq
    exact flipBit_ne _ i j hi hc

/-- Witness for C6 at concrete inputs, one per tampered field. -/
theorem C6_vault_tamper_witness :
    decryptPrivateKey
      { encryptPrivateKey "k".data "w".data [3] [4] with salt := flipBit [3] 0 0 }
      "w".data = .error .authenticationFailure ∧
    decryptPrivateKey
      { encryptPrivateKey "k".data "w".data [3] [4] with iv := flipBit [4] 0 0 }
      "w".data = .error .authenticationFailure ∧
    decryptPrivateKey
      { encryptPrivateKey "k".data "w".data [3] [4] with
          authTag := flipBit (encryptPrivateKey "k".data "w".data [3] [4]).authTag 0 0 }
      "w".data = .error .authenticationFailure ∧
    decryptPrivateKey
      { encryptPrivateKey "k".data "w".data [3] [4] with
          encrypted := flipBit (encryptPrivateKey "k".data "w".data [3] [4]).encrypted 0 0 }
      "w".data = .error .authenticationFailure :=
  ⟨(C6_vault_tamper "k".data "w".data [3] [4] 0 0).1 (by decide),
   (C6_vault_tamper "k".data "w".data [3] [4] 0 0).2.1 (by decide),
   (C6_vault_tamper "k".data "w".data [3] [4] 0 0).2.2.1 (by decide),
   (C6_vault_tamper "k".data "w".data [3] [4] 0 0).2.2.2 (by decide)⟩

/-- Claim C8, counterexample to the field naming: the serialized private-key
record's four field names are `salt`, `iv`, `authTag`, `encrypted` — there is
no field named `ciphertext`, contrary to the claim. -/
theorem C8_counterexample :
    (privateKeyFileRecord (encryptPrivateKey "k".data "w".data [3] [4])).map
        Prod.fst =
      ["salt".data, "iv".data, "authTag".data, "encrypted".data] ∧
    "ciphertext".data ∉
      (privateKeyFileRecord (encryptPrivateKey "k".data "w".data [3] [4])).map
        Prod.fst := by
  decide

/-- Claim C8 as amended: the private-key file record consists of exactly the
four fields `salt`, `iv`, `authTag`, `encrypted`, each the hex encoding of the
corresponding vault-blob component; the private key itself appears only inside
the AEAD ciphertext stored under `encrypted`. -/
theorem C8_record_fields (K W : JSString) (salt iv : Bytes) :
    privateKeyFileRecord (encryptPrivateKey K W salt iv) =
      [("salt".data, hexEncode salt),
       ("iv".data, hexEncode iv),
       ("authTag".data,
        hexEncode (gcmTag (pbkdf2 (utf8Encode W) salt) iv
          (xorKS (aesKeystream (pbkdf2 (utf8Encode W) salt) iv) (utf8Encode K)))),
       ("encrypted".data,
        hexEncode (xorKS (aesKeystream (pbkdf2 (utf8Encode W) salt) iv)
          (utf8Encode K)))] := rfl

/-- Claim C9: `verifyKeyPair` returns true exactly when the public key
recomputed from the private bytes equals the claimed public key; on any
input whose private part is not a valid 32-byte scalar it returns false
rather than raising (the source catches every throw and returns false). -/
theorem C9_verifyKeyPair (publicKey privateKey : Bytes) :
    verifyKeyPair publicKey privateKey = true ↔
      privateKey.length = 32 ∧ x25519pub privateKey = publicKey := by
  unfold verifyKeyPair getPublicKeyChecked
  by_cases h : privateKey.length = 32 <;> simp [h]

/-- Claim C3, counterexample to the length checks: `validateEncryptedData`
returns true for an input whose ephemeralPublicKey decodes to a single byte
(and whose nonce decodes to a single byte), so it does not check the decoded
32-byte / 12-byte lengths the claim states. -/
theorem C3_counterexample :
    validateEncryptedData ⟨.bytes [1], .bytes [2], .bytes [3]⟩ = true ∧
    ¬ ∃ bs : Bytes,
        (RawEnvelope.mk (.bytes [1]) (.bytes [2]) (.bytes [3])).ephemeralPublicKey =
          .bytes bs ∧ bs.length = 32 := by
  refine ⟨by decide, ?_⟩
  rintro ⟨bs, hb, hl⟩
  simp only [] at hb
  cases hb
  simp at hl

/-- Claim C3 as amended: `validateEncryptedData` returns true iff each of the
three fields ephemeralPublicKey, nonce, ciphertext is present (truthy),
decodes as base64 without throwing, and decodes to a non-empty byte string;
in particular every malformed encoding yields false, not an exception, and no
byte-length requirement is imposed. -/
theorem C3_validator_iff (e : RawEnvelope) :
    validateEncryptedData e = true ↔
      (∃ bs : Bytes, e.ephemeralPublicKey = .bytes bs ∧ bs ≠ []) ∧
      (∃ bs : Bytes, e.nonce = .bytes bs ∧ bs ≠ []) ∧
      (∃ bs : Bytes, e.ciphertext = .bytes bs ∧ bs ≠ []) := by
  obtain ⟨f1, f2, f3⟩ := e
  cases f1 <;> cases f2 <;> cases f3 <;>
    simp [validateEncryptedData, checkField, List.length_eq_zero, and_assoc]

/-- Claim C10: `decryptBatch` passes through, completely unchanged and
without attempting decryption, every element whose `encrypted` flag is falsy
or whose `encryption` field is absent; the element keeps its position. -/
theorem C10_passthrough (privateKey : Bytes) (now : Nat) (emails : List BEmail)
    (i : Nat) (e : BEmail) (he : emails[i]? = some e)
    (hcond : e.encrypted = false ∨ e.encryption = none) :
    (decryptBatch privateKey now emails)[i]? = some e := by
  unfold decryptBatch
  rw [List.getElem?_map, he, Option.map_some']
  rw [decryptOne, if_pos hcond]

/-- Witness for C10 at a concrete one-element batch. -/
theorem C10_passthrough_witness :
    (([⟨false, none, [], none, none, none⟩] : List BEmail)[0]? =
        some (⟨false, none, [], none, none, none⟩ : BEmail)) ∧
    ((⟨false, none, [], none, none, none⟩ : BEmail).encrypted = false ∨
      (⟨false, none, [], none, none, none⟩ : BEmail).encryption = none) ∧
    (decryptBatch [] 0 [(⟨false, none, [], none, none, none⟩ : BEmail)])[0]? =
      some (⟨false, none, [], none, none, none⟩ : BEmail) :=
  ⟨by decide, Or.inl (by decide),
   C10_passthrough [] 0 _ 0 _ (by decide) (Or.inl (by decide))⟩

/-- How `decrypt` evaluates on any well-shaped envelope: it slices off the
last 16 bytes as the (never verified) tag and returns the UTF-8 decoding of
the XOR-decrypted body. -/
theorem decrypt_ok (privateKey : Bytes) (env : Envelope) (body tag : Bytes)
    (hct : env.ciphertext = body ++ tag) (htag : tag.length = 16)
    (hpriv : privateKey.length = 32) (hpub : env.ephemeralPublicKey.length = 32)
    (hn : env.nonce.length = 12) :
    decrypt privateKey env =
      .ok (utf8Decode (xorKS
        (chachaKeystream (x25519shared privateKey env.ephemeralPublicKey)
          env.nonce) body)) := by
  unfold decrypt getSharedSecretChecked
  rw [hct]
  simp [hpriv, hpub, hn, htag, List.drop_left, List.take_left]

/-- Claim C2 as amended: for every well-formed Unicode string plaintext P and
every key pair produced by `generateKeyPair`, `decrypt(K.private,
encrypt(K.public, P))` returns P exactly.  (For arbitrary non-UTF-8 byte
plaintexts the returned value is the replacement-decoded text, not the
original bytes — see the counterexample.) -/
theorem C2_roundtrip_string (rand ephPriv nonce : Bytes) (P : JSString)
    (now : Nat) (hr : rand.length = 32) (he : ephPriv.length = 32)
    (hn : nonce.length = 12) :
    ∃ env : Envelope,
      encrypt (generateKeyPair rand).publicKey (.str P) ephPriv nonce now =
        .ok env ∧
      decrypt (generateKeyPair rand).privateKey env = .ok P := by
  have hpub : (x25519pub rand).length = 32 := length_encodeLE 32 _
  have hepub : (x25519pub ephPriv).length = 32 := length_encodeLE 32 _
  refine ⟨{ keyId := (x25519pub rand).take 8
            ephemeralPublicKey := x25519pub ephPriv
            nonce := nonce
            ciphertext :=
              xorKS (chachaKeystream (x25519shared ephPriv (x25519pub rand)) nonce)
                  (plainBytes (.str P)) ++
                poly1305 (x25519shared ephPriv (x25519pub rand)) nonce
                  (xorKS (chachaKeystream (x25519shared ephPriv (x25519pub rand))
                    nonce) (plainBytes (.str P)))
            timestamp := now }, ?_, ?_⟩
  · unfold encrypt getPublicKeyChecked getSharedSecretChecked generateKeyPair
    simp [he, hpub, hn]
  · dsimp only [generateKeyPair]
    have hd := decrypt_ok rand
      { keyId := (x25519pub rand).take 8
        ephemeralPublicKey := x25519pub ephPriv
        nonce := nonce
        ciphertext :=
          xorKS (chachaKeystream (x25519shared ephPriv (x25519pub rand)) nonce)
              (plainBytes (.str P)) ++
            poly1305 (x25519shared ephPriv (x25519pub rand)) nonce
              (xorKS (chachaKeystream (x25519shared ephPriv (x25519pub rand))
                nonce) (plainBytes (.str P)))
        timestamp := now }
      (xorKS (chachaKeystream (x25519shared ephPriv (x25519pub rand)) nonce)
        (plainBytes (.str P)))
      (poly1305 (x25519shared ephPriv (x25519pub rand)) nonce
        (xorKS (chachaKeystream (x25519shared ephPriv (x25519pub rand)) nonce)
          (plainBytes (.str P))))
      rfl (length_poly1305 _ _ _) hr hepub hn
    dsimp only at hd
    rw [hd, dh_comm, xorKS_xorKS]
    show Except.ok (utf8Decode (utf8Encode P)) = Except.ok P
    rw [utf8Decode_utf8Encode]

/-- Witness for C2 (amended) at concrete inputs. -/
theorem C2_roundtrip_string_witness :
    (sampleRand.length = 32 ∧ sampleEph.length = 32 ∧ sampleNonce.length = 12) ∧
    ∃ env : Envelope,
      encrypt (generateKeyPair sampleRand).publicKey (.str "hi".data) sampleEph
          sampleNonce 0 = .ok env ∧
      decrypt (generateKeyPair sampleRand).privateKey env = .ok "hi".data :=
  ⟨⟨by decide, by decide, by decide⟩,
   C2_roundtrip_string sampleRand sampleEph sampleNonce "hi".data 0 (by decide)
     (by decide) (by decide)⟩

set_option maxRecDepth 8192 in
/-- Claim C2, counterexample to the arbitrary-byte-string part: encrypting the
single byte 0xFF (not valid UTF-8) and decrypting returns the one-character
replacement string U+FFFD, not the original byte string — `decrypt` ends with
`TextDecoder().decode(...)`, which is lossy on non-UTF-8 plaintexts. -/
theorem C2_counterexample :
    encrypt sampleKP.publicKey (.bytes [255]) sampleEph sampleNonce 0 =
      .ok sampleEnv255 ∧
    decrypt sampleKP.privateKey sampleEnv255 = .ok [replChar] ∧
    utf8Encode [replChar] ≠ [255] ∧
    Plain.str [replChar] ≠ Plain.bytes [255] := by
  decide

set_option maxRecDepth 8192 in
/-- Claim C1 (code bug): the source `decrypt` calls `setAuthTag` but never
`decipher.final()`, so the Poly1305 tag is never verified.  On a concrete
envelope produced by `encrypt`: flipping a bit of the ciphertext body makes
`decrypt` return the altered plaintext `"ii"` instead of failing; flipping a
bit of the appended tag makes it return the original plaintext `"hi"`;
flipping a bit of the nonce or of the ephemeralPublicKey still returns
normally — in no case is AuthenticationFailure raised. -/
theorem C1_tamper_not_authenticated :
    encrypt sampleKP.publicKey (.str "hi".data) sampleEph sampleNonce 0 =
      .ok sampleEnv ∧
    decrypt sampleKP.privateKey sampleEnv = .ok "hi".data ∧
    decrypt sampleKP.privateKey
        { sampleEnv with ciphertext := flipBit sampleEnv.ciphertext 0 0 } =
      .ok "ii".data ∧
    decrypt sampleKP.privateKey
        { sampleEnv with
            ciphertext :=
              flipBit sampleEnv.ciphertext (sampleEnv.ciphertext.length - 1) 0 } =
      .ok "hi".data ∧
    (decrypt sampleKP.privateKey
        { sampleEnv with nonce := flipBit sampleEnv.nonce 0 0 }).isOk = true ∧
    decrypt sampleKP.privateKey
        { sampleEnv with nonce := flipBit sampleEnv.nonce 0 0 } ≠
      .error .authenticationFailure ∧
    (decrypt sampleKP.privateKey
        { sampleEnv with
            ephemeralPublicKey := flipBit sampleEnv.ephemeralPublicKey 0 0 }).isOk =
      true ∧
    decrypt sampleKP.privateKey
        { sampleEnv with
            ephemeralPublicKey := flipBit sampleEnv.ephemeralPublicKey 0 0 } ≠
      .error .authenticationFailure := by
  decide

set_option maxRecDepth 8192 in
/-- Claim C7 (code bug): on a two-element batch whose second envelope has one
bit of its authentication tag flipped, `decryptBatch` reports TWO successes
and zero per-element failures — the tampered element decrypts to the original
payload and is marked decrypted — because the underlying `decrypt` never
verifies the tag.  (The length/order-preserving map structure itself is as
claimed; the "exactly 1 failure for 1 tampered element" part is what the code
violates.) -/
theorem C7_batch_tampered_success :
    encrypt sampleKP.publicKey (.str sampleJson) sampleEph sampleNonce 0 =
      .ok sampleEnvJ ∧
    decryptBatch sampleKP.privateKey 7
        [mkBatchEmail sampleEnvJ,
         mkBatchEmail
           { sampleEnvJ with
               ciphertext :=
                 flipBit sampleEnvJ.ciphertext (sampleEnvJ.ciphertext.length - 1)
                   0 }] =
      [{ mkBatchEmail sampleEnvJ with
           payload := sampleJson, encrypted := false, decryptedAt := some 7 },
       { mkBatchEmail
           { sampleEnvJ with
               ciphertext :=
                 flipBit sampleEnvJ.ciphertext (sampleEnvJ.ciphertext.length - 1)
                   0 } with
           payload := sampleJson, encrypted := false, decryptedAt := some 7 }] := by
  decide
